import Mathlib

/-!
# Verification of the Sleeper MCP server core (src/src/index.ts)

Shallow embedding of the core subsystems of the Sleeper fantasy-football
MCP server: the scoring-reconstruction engine, the current-week cache,
the request pacer, identity/league resolution, the player directory and
the trade evaluator.  JavaScript numbers are idealised as rationals
(`ℚ`); the one place where IEEE special values are observable (the
`0/0 → NaN` percent difference in trade analysis) is modelled with an
explicit `JSNum` type carrying `NaN`/`±Infinity`.  JavaScript object
maps are modelled as association lists with first-occurrence lookup,
matching `Map.get`/property access on objects without duplicate keys.
-/

namespace SleeperMCP

/-! ## JavaScript string primitives

`String.prototype.includes`, `toLowerCase` (ASCII range, which is all
the repository compares), and association-list lookup used to model
both plain objects and `Map`s. -/

/-- `startsWithL n h` : the char list `h` starts with `n`. -/
def startsWithL : List Char → List Char → Bool
  | [], _ => true
  | _ :: _, [] => false
  | a :: as, b :: bs => a == b && startsWithL as bs

/-- `hasSub n h` : `n` occurs as a contiguous sublist of `h`. -/
def hasSub : List Char → List Char → Bool
  | n, [] => n.isEmpty
  | n, c :: t => startsWithL n (c :: t) || hasSub n t

/-- JavaScript `hay.includes(needle)`. -/
def strIncludes (hay needle : String) : Bool :=
  hasSub needle.data hay.data

/-- JavaScript `s.toLowerCase()` (ASCII case mapping). -/
def jsToLower (s : String) : String :=
  ⟨s.data.map Char.toLower⟩

/-- First-occurrence association-list lookup (JS object / `Map.get`). -/
def lookupA {β : Type} : List (String × β) → String → Option β
  | [], _ => none
  | (k, v) :: t, key => if k = key then some v else lookupA t key

/-- `Map.set` semantics: overwrite the first occurrence, else append. -/
def insertA {β : Type} : List (String × β) → String → β → List (String × β)
  | [], key, v => [(key, v)]
  | (k, w) :: t, key, v =>
    if k = key then (key, v) :: t else (k, w) :: insertA t key v

/-! ## ScoringEngine (`previewMatchup`, lines 2194–2241)

The projection loop computes fantasy points from raw stats and the
league's `scoring_settings`.  The code tests a fixed list of fifteen
stat categories with JavaScript truthiness (`stats.X &&
scoringSettings.X`, i.e. both present and nonzero), then falls back to
a pre-aggregated point field chosen by the `rec` weight when the
accumulated total is exactly zero. -/

/-- The fifteen stat categories the code inspects, in source order. -/
def knownCats : List String :=
  ["pass_yd", "pass_td", "pass_int", "pass_2pt",
   "rush_yd", "rush_td", "rush_2pt",
   "rec", "rec_yd", "rec_td", "rec_2pt",
   "fum_lost", "fum", "fum_rec", "fum_rec_td"]

/-- One category's contribution: `if (stats.c && weights.c) points += stats.c * weights.c`. -/
def catContrib (stats weights : List (String × ℚ)) (c : String) : ℚ :=
  match lookupA stats c, lookupA weights c with
  | some s, some w => if s ≠ 0 ∧ w ≠ 0 then s * w else 0
  | _, _ => 0

/-- The accumulated weighted-category total over the fixed category list. -/
def rawPoints (stats weights : List (String × ℚ)) : ℚ :=
  (knownCats.map (catContrib stats weights)).sum

/-- `stats.f || 0` : a pre-aggregated point field, defaulting to `0`. -/
def getQ (stats : List (String × ℚ)) (k : String) : ℚ :=
  (lookupA stats k).getD 0

/-- The pre-aggregated fallback selected by the league's `rec` weight. -/
def recFallback (stats weights : List (String × ℚ)) : ℚ :=
  if lookupA weights "rec" = some 1 then getQ stats "pts_ppr"
  else if lookupA weights "rec" = some (1/2) then getQ stats "pts_half_ppr"
  else getQ stats "pts_std"

/-- `computePoints` as the projection loop implements it. -/
def computePoints (stats weights : List (String × ℚ)) : ℚ :=
  let pts := rawPoints stats weights
  if pts = 0 then recFallback stats weights else pts

/-- The claim's sum as stated: over every category present in both the
stats and the weights with a nonzero weight (not restricted to the
fixed known-category list). -/
def claimSumAll (stats weights : List (String × ℚ)) : ℚ :=
  (stats.map (fun p =>
    match lookupA weights p.1 with
    | some w => if w ≠ 0 then p.2 * w else 0
    | none => 0)).sum

/-- One category's term of the claim's sum: present in both maps with
a nonzero weight (the stat itself need not be nonzero, unlike
`catContrib`). -/
def claimCat (stats weights : List (String × ℚ)) (c : String) : ℚ :=
  match lookupA stats c, lookupA weights c with
  | some s, some w => if w ≠ 0 then s * w else 0
  | _, _ => 0

/-- The claim's sum restricted to the fixed known-category list. -/
def claimSumKnown (stats weights : List (String × ℚ)) : ℚ :=
  (knownCats.map (claimCat stats weights)).sum

/-! ## PeriodCache (`currentWeekCache`, `isCacheValid`, `clearOldCache`,
and the cache-access block of `previewMatchup`, lines 2074–2121)

The cache holds per-league matchups and rosters (values modelled as
opaque identifiers, so that returning "the same object" is visible as
equality of identifiers), per-player projections and bulk-projection
rows, plus one shared `timestamp`.  Times are integers (milliseconds).
`clearOldCache` is invoked from `getNFLState` (line 2617) only. -/

/-- `this.currentWeekCache`. -/
structure CacheState where
  matchups : List (String × Nat)
  rosters : List (String × Nat)
  projections : List (String × ℚ)
  bulkProjections : List (String × Nat)
  timestamp : ℤ
  deriving Repr, DecidableEq

/-- `CACHE_DURATION = 5 * 60 * 1000`. -/
def CACHE_DURATION : ℤ := 5 * 60 * 1000

/-- `isCacheValid()`: `Date.now() - timestamp < CACHE_DURATION`. -/
def isCacheValidB (s : CacheState) (now : ℤ) : Bool :=
  decide (now - s.timestamp < CACHE_DURATION)

/-- `clearOldCache()`: when the cache is stale, drop every cached kind
for every league (the timestamp itself is left as-is). -/
def clearOldCache (s : CacheState) (now : ℤ) : CacheState :=
  if isCacheValidB s now then s
  else { s with matchups := [], rosters := [], projections := [], bulkProjections := [] }

/-- `getNFLState()` (line 2608): refreshes the cached current week from
the upstream state endpoint, then runs `clearOldCache`.  Returns the
new cache state and the new `this.currentWeek`. -/
def getNFLStateStep (s : CacheState) (fetchedWeek : Nat) (now : ℤ) :
    CacheState × Option Nat :=
  (clearOldCache s now, some fetchedWeek)

/-- The matchups/rosters acquisition block of `previewMatchup`
(lines 2074–2121).  `currentWeek` is `this.currentWeek`; `fm`/`fr`
are the identifiers of the matchups/rosters a live fetch would return.
Result: the new cache state, the `(matchups, rosters)` data used, and
whether a live matchups/rosters fetch was performed. -/
def previewAccess (s : CacheState) (currentWeek : Option Nat) (week : Nat)
    (leagueId : String) (now : ℤ) (fm fr : Nat) :
    CacheState × (Nat × Nat) × Bool :=
  if currentWeek = some week ∧ isCacheValidB s now then
    match lookupA s.matchups leagueId, lookupA s.rosters leagueId with
    | some m, some r => (s, (m, r), false)
    | _, _ =>
      ({ s with
          matchups := insertA s.matchups leagueId fm,
          rosters := insertA s.rosters leagueId fr,
          timestamp := now },
       (fm, fr), true)
  else (s, (fm, fr), true)

/-! ## RequestPacer (`rateLimit`, lines 418–425)

`rateLimit()` reads `lastRequestTime`, possibly sleeps, then writes
`lastRequestTime := Date.now()`.  Because the sleep is an `await`,
other calls can interleave between the read and the write.  We model a
call as two events against shared state: a `read` (entering the
function: computes the earliest time the call may resume) and a
`commit` (the `this.lastRequestTime = Date.now()` write, which is the
recorded time of the outbound request that follows).  A trace is valid
when event times are non-decreasing, each call reads before it
commits, and each commit happens no earlier than the resume time its
read computed (`setTimeout` may wake late, never early). -/

/-- `this.requestDelay = 100`. -/
def requestDelay : ℤ := 100

/-- Shared pacer state threaded through an event trace. -/
structure PacerState where
  last : ℤ
  prevTime : ℤ
  pending : List (Nat × ℤ)
  started : List Nat
  requests : List ℤ
  deriving Repr, DecidableEq

/-- Pacer state at process start (`lastRequestTime = 0`). -/
def pacerInit : PacerState :=
  { last := 0, prevTime := 0, pending := [], started := [], requests := [] }

/-- One interleaving event of a `rateLimit()` call. -/
inductive PacerEvent where
  | read (id : Nat) (t : ℤ)
  | commit (id : Nat) (t : ℤ)
  deriving Repr, DecidableEq

/-- Assoc lookup over `Nat` keys (a call's pending resume target). -/
def lookupN {β : Type} : List (Nat × β) → Nat → Option β
  | [], _ => none
  | (k, v) :: t, key => if k = key then some v else lookupN t key

/-- Remove a call from the pending set. -/
def removeN {β : Type} : List (Nat × β) → Nat → List (Nat × β)
  | [], _ => []
  | (k, v) :: t, key => if k = key then t else (k, v) :: removeN t key

/-- One event of a `rateLimit()` execution.  A `read` at time `t`
computes the resume target exactly as the code does: if
`t - last < requestDelay` the call sleeps until `last + requestDelay`,
otherwise it resumes immediately.  A `commit` at time `t ≥ target`
records the request time and sets `lastRequestTime := t`. -/
def paceStep (s : PacerState) : PacerEvent → Option PacerState
  | .read id t =>
    if s.prevTime ≤ t ∧ id ∉ s.started then
      let target := if t - s.last < requestDelay then s.last + requestDelay else t
      some { s with prevTime := t, pending := (id, target) :: s.pending,
                    started := id :: s.started }
    else none
  | .commit id t =>
    (lookupN s.pending id).bind (fun target =>
      if s.prevTime ≤ t ∧ target ≤ t then
        some { s with prevTime := t, last := t, pending := removeN s.pending id,
                      requests := s.requests ++ [t] }
      else none)

/-- Run a whole event trace from a state. -/
def paceRun (s : PacerState) : List PacerEvent → Option PacerState
  | [] => some s
  | e :: es => (paceStep s e).bind (fun s1 => paceRun s1 es)

/-- Consecutive recorded request times are at least `requestDelay` apart. -/
def gapsOK : List ℤ → Bool
  | [] => true
  | [_] => true
  | a :: b :: t => decide (a + requestDelay ≤ b) && gapsOK (b :: t)

/-- A fully serialized call sequence: call `i` reads at `tᵢ` and
commits at `cᵢ` before call `i + 1` starts. -/
def mkSerial : Nat → List (ℤ × ℤ) → List PacerEvent
  | _, [] => []
  | i, (t, c) :: rest => .read i t :: .commit i c :: mkSerial (i + 1) rest

/-! ## IdentityResolver (`findUserAndLeague`, lines 290–364, and
`ensureRosterId`, lines 366–402)

Configuration state (`this.users`) is a list of accounts, each with
lazily-filled `userId` and per-binding `leagueName`/`rosterId`.
Upstream fetches are modelled by an `Oracles` record; `none` means the
fetch failed (threw).  Within one call, memoising writes to
`leagueName` are invisible because the oracle is a fixed function, so
the resolver is written directly against the oracle. -/

/-- One league binding of a configured account. -/
structure LeagueBinding where
  leagueId : String
  leagueName : Option String
  rosterId : Option String
  deriving Repr, DecidableEq

/-- One configured account (`UserConfig` in the source). -/
structure UserConfig where
  username : String
  userId : Option String
  leagues : List LeagueBinding
  deriving Repr, DecidableEq

/-- A row of `GET /league/{id}/rosters`. -/
structure SleeperRosterRec where
  roster_id : Nat
  owner_id : Option String
  deriving Repr, DecidableEq

/-- A row of `GET /league/{id}/users`. -/
structure LeagueUserRec where
  user_id : String
  username : Option String
  deriving Repr, DecidableEq

/-- Upstream fetch results; `none` models a thrown network error. -/
structure Oracles where
  leagueName : String → Option String
  userByName : String → Option String
  rosters : String → Option (List SleeperRosterRec)
  leagueUsers : String → Option (List LeagueUserRec)

/-- The first non-`none` result of `f` over a list (the early-return
pattern of the resolver's `for` loops). -/
def firstSome {α β : Type} (f : α → Option β) : List α → Option β
  | [] => none
  | x :: xs =>
    match f x with
    | some y => some y
    | none => firstSome f xs

/-- JavaScript `===` between two possibly-missing string fields
(`null === s` and `undefined === s` are false for a string `s`). -/
def jsStrEq : Option String → Option String → Bool
  | some a, some b => a == b
  | _, _ => false

/-- The body of `ensureRosterId` after the `userId` has been ensured:
fetch the league's rosters, find the roster owned by the account, and
on an ownership miss retry through the league's member list.  Returns
the updated `(user, league)` and whether an exception was caught. -/
def ensureRosterIdFetch (o : Oracles) (user : UserConfig) (league : LeagueBinding) :
    (UserConfig × LeagueBinding) × Bool :=
  match o.rosters league.leagueId with
  | none => ((user, league), true)
  | some rosters =>
    match rosters.find? (fun r => jsStrEq r.owner_id user.userId) with
    | some r => ((user, { league with rosterId := some (toString r.roster_id) }), false)
    | none =>
      if rosters.length > 0 then
        match o.leagueUsers league.leagueId with
        | none => ((user, league), true)
        | some lus =>
          match lus.find? (fun u =>
              jsStrEq u.username (some user.username) ||
              jsStrEq (some u.user_id) user.userId) with
          | some lu =>
            match rosters.find? (fun r => jsStrEq r.owner_id (some lu.user_id)) with
            | some r2 =>
              (({ user with userId := some lu.user_id },
                { league with rosterId := some (toString r2.roster_id) }), false)
            | none => ((user, league), false)
          | none => ((user, league), false)
      else ((user, league), false)

/-- `ensureRosterId` with its caught-exception flag: a no-op when the
binding already has a roster id; otherwise resolve the account's user
id if missing, then run the roster lookup.  A `none` oracle result is
the thrown error the `catch` swallows. -/
def ensureRosterIdRun (o : Oracles) (user : UserConfig) (league : LeagueBinding) :
    (UserConfig × LeagueBinding) × Bool :=
  if league.rosterId.isSome then ((user, league), false)
  else
    match user.userId with
    | none =>
      match o.userByName user.username with
      | none => ((user, league), true)
      | some uid => ensureRosterIdFetch o { user with userId := some uid } league
    | some _ => ensureRosterIdFetch o user league

/-- `ensureRosterId` as the caller sees it: the updated state only
(errors are swallowed). -/
def ensureRosterId (o : Oracles) (user : UserConfig) (league : LeagueBinding) :
    UserConfig × LeagueBinding :=
  (ensureRosterIdRun o user league).1

/-- A binding's display name as one resolution call observes it:
the cached name, else the result of the (possibly failing) fetch. -/
def effName (o : Oracles) (b : LeagueBinding) : Option String :=
  match b.leagueName with
  | some n => some n
  | none => o.leagueName b.leagueId

/-- `league.leagueName?.toLowerCase().includes(hintLower) ||
hintLower.includes(league.leagueName?.toLowerCase() || '')`.  When the
name is still missing the second disjunct is `includes('')`, which is
true for every hint. -/
def nameMatches (o : Oracles) (hintLower : String) (b : LeagueBinding) : Bool :=
  match effName o b with
  | some n => strIncludes (jsToLower n) hintLower || strIncludes hintLower (jsToLower n)
  | none => strIncludes hintLower ""

/-- The account-handle match of the hint (either direction). -/
def handleMatches (hintLower : String) (u : UserConfig) : Bool :=
  strIncludes (jsToLower u.username) hintLower ||
  strIncludes hintLower (jsToLower u.username)

/-- The cross-account match: name substring either way, or exact
equality with the raw (un-lowercased) league identifier. -/
def pass3Matches (o : Oracles) (hint hintLower : String) (b : LeagueBinding) : Bool :=
  nameMatches o hintLower b || b.leagueId == hint

/-- The within-account step of the hint pass: on a handle match, a
single league is returned directly, otherwise the first league whose
display name matches the hint. -/
def pass2User (o : Oracles) (hintLower : String) (u : UserConfig) :
    Option (UserConfig × LeagueBinding) :=
  if handleMatches hintLower u then
    match u.leagues with
    | [b] => some (ensureRosterId o u b)
    | bs => firstSome (fun b =>
        if nameMatches o hintLower b then some (ensureRosterId o u b) else none) bs
  else none

/-- `findUserAndLeague(hint?)`: the guard, the no-hint single-account
shortcut, the handle pass, the cross-account league-name pass, and the
first-account fallback, in source order. -/
def findUserAndLeague (o : Oracles) (users : List UserConfig) (hint : Option String) :
    Option (UserConfig × LeagueBinding) :=
  match users with
  | [] => none
  | u0 :: rest =>
    match u0.leagues with
    | [] => none
    | l0 :: ls =>
      if hint.isNone ∧ rest.isEmpty ∧ ls.isEmpty then
        some (ensureRosterId o u0 l0)
      else
        match hint with
        | some hstr =>
          let hintLower := jsToLower hstr
          match firstSome (pass2User o hintLower) (u0 :: rest) with
          | some res => some res
          | none =>
            match firstSome (fun u => firstSome (fun b =>
                if pass3Matches o hstr hintLower b then some (ensureRosterId o u b) else none)
                u.leagues) (u0 :: rest) with
            | some res => some res
            | none => some (ensureRosterId o u0 l0)
        | none => some (ensureRosterId o u0 l0)

/-- The claim's cross-account pass, stated directly: the first binding
of any account (in configuration order) whose display name matches the
hint or whose raw identifier equals it. -/
def crossAccountFirstMatch (o : Oracles) (users : List UserConfig) (hstr : String) :
    Option (UserConfig × LeagueBinding) :=
  firstSome (fun u => firstSome (fun b =>
    if pass3Matches o hstr (jsToLower hstr) b then some (u, b) else none) u.leagues) users

/-! ## PlayerDirectory (`loadPlayersCache`, lines 1325–1338)

A process-lifetime map from player id to metadata, populated once.
The load guard is `playersCache.size === 0`; a failed fetch is logged
and swallowed.  The `Bool` result records whether a full fetch was
attempted by this call. -/

/-- Player metadata (the fields the analytics layer reads). -/
structure SleeperPlayer where
  first_name : String
  last_name : String
  position : Option String
  injury_status : Option String
  deriving Repr, DecidableEq

/-- `loadPlayersCache()`: fetch the full catalog when the cache is
empty, populating it entry by entry; on failure leave it as-is. -/
def loadPlayersCacheRun (fetched : Option (List (String × SleeperPlayer)))
    (cache : List (String × SleeperPlayer)) :
    List (String × SleeperPlayer) × Bool :=
  if cache.length = 0 then
    match fetched with
    | some entries => (entries.foldl (fun c p => insertA c p.1 p.2) cache, true)
    | none => (cache, true)
  else (cache, false)

/-! ## Trade evaluation (`analyzeTrade`, lines 1778–1862)

Position-tier values with an injury discount, side sums, and a percent
difference computed by JavaScript floating-point division — observable
as `NaN` when both sides are worth zero.  `JSNum` carries the special
values through `*`, `>` and `toFixed`. -/

/-- A JavaScript number: a rational, or one of the special values. -/
inductive JSNum where
  | num (q : ℚ)
  | nan
  | inf
  | ninf
  deriving Repr, DecidableEq

/-- JavaScript division of two (finite) numbers. -/
def jsDiv (a b : ℚ) : JSNum :=
  if b = 0 then (if a = 0 then .nan else if a > 0 then .inf else .ninf)
  else .num (a / b)

/-- JavaScript multiplication by a finite constant. -/
def jsMulK : JSNum → ℚ → JSNum
  | .num a, c => .num (a * c)
  | .nan, _ => .nan
  | .inf, c => if c = 0 then .nan else if c > 0 then .inf else .ninf
  | .ninf, c => if c = 0 then .nan else if c > 0 then .ninf else .inf

/-- JavaScript `x > c` (false whenever `x` is `NaN`). -/
def jsGtK : JSNum → ℚ → Bool
  | .num a, c => decide (c < a)
  | .nan, _ => false
  | .inf, _ => true
  | .ninf, _ => false

/-- `toFixed(1)` on a nonnegative rational: round to one decimal,
ties to the larger candidate. -/
def toFixed1Nonneg (q : ℚ) : String :=
  let n : Nat := (⌊q * 10 + 1 / 2⌋).toNat
  toString (n / 10) ++ "." ++ toString (n % 10)

/-- `toFixed(1)` on a rational (negatives print a leading minus). -/
def toFixed1Q (q : ℚ) : String :=
  if q < 0 then "-" ++ toFixed1Nonneg (-q) else toFixed1Nonneg q

/-- JavaScript `x.toFixed(1)`. -/
def jsToFixed1 : JSNum → String
  | .num q => toFixed1Q q
  | .nan => "NaN"
  | .inf => "Infinity"
  | .ninf => "-Infinity"

/-- JavaScript truthiness of a possibly-missing string field. -/
def jsTruthyStr : Option String → Bool
  | none => false
  | some s => !(s == "")

/-- `getPlayerValue`: position-tier base value via the source's
sequence of overwriting `if`s, discounted by `0.7` on any (truthy)
injury designation; a player absent from the directory is worth 0. -/
def getPlayerValue (cache : List (String × SleeperPlayer)) (id : String) : ℚ :=
  match lookupA cache id with
  | none => 0
  | some p =>
    let v0 : ℚ := 50
    let v1 : ℚ := if p.position = some "QB" then 100 else v0
    let v2 : ℚ := if p.position = some "RB" then 80 else v1
    let v3 : ℚ := if p.position = some "WR" then 70 else v2
    let v4 : ℚ := if p.position = some "TE" then 60 else v3
    if jsTruthyStr p.injury_status then v4 * (7 / 10) else v4

/-- A side's aggregate value (`reduce` from 0). -/
def teamValue (cache : List (String × SleeperPlayer)) (ids : List String) : ℚ :=
  (ids.map (getPlayerValue cache)).sum

/-- The fields of the `analysis` object the claims are about. -/
structure TradeAnalysis where
  team1_value : ℚ
  team2_value : ℚ
  value_difference : ℚ
  percent_difference : String
  recommendation : String
  deriving Repr, DecidableEq

/-- The value/percent/recommendation core of `analyzeTrade`. -/
def analyzeTradeCore (cache : List (String × SleeperPlayer))
    (playersFrom1 playersFrom2 : List String) : TradeAnalysis :=
  let team1Value := teamValue cache playersFrom1
  let team2Value := teamValue cache playersFrom2
  let valueDiff := |team1Value - team2Value|
  let percentDiff := jsMulK (jsDiv valueDiff (max team1Value team2Value)) 100
  let recommend :=
    if jsGtK percentDiff 30 then
      if team1Value > team2Value then "Team 1 wins significantly"
      else "Team 2 wins significantly"
    else if jsGtK percentDiff 15 then
      if team1Value > team2Value then "Team 1 has slight advantage"
      else "Team 2 has slight advantage"
    else "Fair trade"
  { team1_value := team1Value, team2_value := team2Value,
    value_difference := valueDiff,
    percent_difference := jsToFixed1 percentDiff ++ "%",
    recommendation := recommend }

/-- The claim's position-tier table, stated as a table. -/
def tierValue (pos : Option String) : ℚ :=
  match pos with
  | some "QB" => 100
  | some "RB" => 80
  | some "WR" => 70
  | some "TE" => 60
  | _ => 50

/-! Concrete fixtures used by witnesses. -/

/-- An oracle environment where every upstream fetch fails. -/
def oNone : Oracles :=
  { leagueName := fun _ => none, userByName := fun _ => none,
    rosters := fun _ => none, leagueUsers := fun _ => none }

/-- A two-player directory: a healthy QB and a healthy kicker. -/
def cache8 : List (String × SleeperPlayer) :=
  [("q", { first_name := "Pat", last_name := "M", position := some "QB", injury_status := none }),
   ("k", { first_name := "Harrison", last_name := "B", position := some "K", injury_status := none })]

/-- A cache holding two leagues whose timestamp has long expired. -/
def staleCache : CacheState :=
  { matchups := [("A", 1), ("B", 2)], rosters := [("A", 3), ("B", 4)],
    projections := [], bulkProjections := [], timestamp := 0 }

/-- The cache at process start. -/
def emptyCache : CacheState :=
  { matchups := [], rosters := [], projections := [], bulkProjections := [], timestamp := 0 }

/-- A binding with a cached display name and no roster id yet. -/
def bindW : LeagueBinding :=
  { leagueId := "L1", leagueName := some "Dynasty Warriors", rosterId := none }

/-- An account owning `bindW`. -/
def userW : UserConfig :=
  { username := "alice", userId := none, leagues := [bindW] }

/-- A binding whose roster id is already resolved. -/
def l6a : LeagueBinding := { leagueId := "L1", leagueName := none, rosterId := some "1" }

/-- A binding whose roster id is not yet resolved. -/
def l6b : LeagueBinding := { leagueId := "L2", leagueName := none, rosterId := none }

/-- An account for the roster-resolution scenarios. -/
def u6 : UserConfig := { username := "alice", userId := none, leagues := [l6a, l6b] }

/-! ## Helper lemmas -/

theorem lookupA_insertA_self {β : Type} (m : List (String × β)) (k : String) (v : β) :
    lookupA (insertA m k v) k = some v := by
  induction m with
  | nil => simp [insertA, lookupA]
  | cons hd tl ih =>
    obtain ⟨a, b⟩ := hd
    by_cases hak : a = k
    · simp [insertA, lookupA, hak]
    · simp [insertA, lookupA, hak, ih]

theorem lookupA_insertA_ne {β : Type} (m : List (String × β)) (k : String) (v : β)
    (k2 : String) (h : k2 ≠ k) :
    lookupA (insertA m k v) k2 = lookupA m k2 := by
  have h1 : ¬k = k2 := fun hk => h hk.symm
  have h2 : ¬k2 = k := h
  induction m with
  | nil => simp [insertA, lookupA, h1]
  | cons hd tl ih =>
    obtain ⟨a, b⟩ := hd
    by_cases hak : a = k
    · subst hak
      simp [insertA, lookupA, h1]
    · by_cases hak2 : a = k2 <;> simp [insertA, lookupA, hak, hak2, ih, h1, h2]

theorem catContrib_eq_claimCat (stats weights : List (String × ℚ)) (c : String) :
    catContrib stats weights c = claimCat stats weights c := by
  unfold catContrib claimCat
  cases lookupA stats c with
  | none => rfl
  | some s =>
    cases lookupA weights c with
    | none => rfl
    | some w =>
      by_cases hs : s = 0
      · by_cases hw : w = 0 <;> simp [hs, hw]
      · by_cases hw : w = 0 <;> simp [hs, hw]

theorem rawPoints_eq_claimSumKnown (stats weights : List (String × ℚ)) :
    rawPoints stats weights = claimSumKnown stats weights := by
  unfold rawPoints claimSumKnown
  have h : catContrib stats weights = claimCat stats weights :=
    funext (catContrib_eq_claimCat stats weights)
  rw [h]

theorem firstSome_eq_none {α β : Type} (f : α → Option β) (l : List α)
    (h : ∀ x ∈ l, f x = none) : firstSome f l = none := by
  induction l with
  | nil => rfl
  | cons x xs ih =>
    unfold firstSome
    rw [h x (List.mem_cons_self x xs)]
    exact ih (fun y hy => h y (List.mem_cons_of_mem x hy))

theorem firstSome_if_map {α γ : Type} (Q : α → Bool) (F : α → γ) (l : List α) :
    firstSome (fun b => if Q b then some (F b) else none) l =
      (firstSome (fun b => if Q b then some b else none) l).map F := by
  induction l with
  | nil => rfl
  | cons x xs ih =>
    by_cases hq : Q x = true
    · simp [firstSome, hq]
    · simp only [Bool.not_eq_true] at hq
      simp [firstSome, hq, ih]

theorem firstSome_nested_map {γ : Type} (users : List UserConfig)
    (Q : UserConfig → LeagueBinding → Bool) (F : UserConfig → LeagueBinding → γ) :
    firstSome (fun u => firstSome (fun b => if Q u b then some (F u b) else none) u.leagues) users =
      (firstSome (fun u => firstSome (fun b => if Q u b then some (u, b) else none) u.leagues)
        users).map (fun p => F p.1 p.2) := by
  induction users with
  | nil => rfl
  | cons u us ih =>
    have inner1 := firstSome_if_map (Q u) (fun b => F u b) u.leagues
    have inner2 := firstSome_if_map (Q u) (fun b => ((u, b) : UserConfig × LeagueBinding)) u.leagues
    unfold firstSome
    rw [inner1, inner2]
    cases hfs : firstSome (fun b => if Q u b then some b else none) u.leagues with
    | none => simpa using ih
    | some b => simp

theorem ensureRosterIdFetch_username (o : Oracles) (u : UserConfig) (l : LeagueBinding) :
    (ensureRosterIdFetch o u l).1.1.username = u.username := by
  unfold ensureRosterIdFetch
  repeat' split
  all_goals rfl

theorem ensureRosterIdFetch_leagueId (o : Oracles) (u : UserConfig) (l : LeagueBinding) :
    (ensureRosterIdFetch o u l).1.2.leagueId = l.leagueId := by
  unfold ensureRosterIdFetch
  repeat' split
  all_goals rfl

theorem ensureRosterId_username (o : Oracles) (u : UserConfig) (l : LeagueBinding) :
    (ensureRosterId o u l).1.username = u.username := by
  unfold ensureRosterId ensureRosterIdRun
  repeat' split
  all_goals first
    | rfl
    | exact ensureRosterIdFetch_username o _ l

theorem ensureRosterId_leagueId (o : Oracles) (u : UserConfig) (l : LeagueBinding) :
    (ensureRosterId o u l).2.leagueId = l.leagueId := by
  unfold ensureRosterId ensureRosterIdRun
  repeat' split
  all_goals first
    | rfl
    | exact ensureRosterIdFetch_leagueId o _ l

theorem ensureRosterIdFetch_league_or_flag (o : Oracles) (u : UserConfig) (l : LeagueBinding) :
    ((ensureRosterIdFetch o u l).1.2 = l ∧ (ensureRosterIdFetch o u l).2 = true) ∨
      (ensureRosterIdFetch o u l).2 = false := by
  unfold ensureRosterIdFetch
  repeat' split
  all_goals first | exact Or.inl ⟨rfl, rfl⟩ | exact Or.inr rfl

theorem ensureRosterIdRun_league_or_flag (o : Oracles) (u : UserConfig) (l : LeagueBinding) :
    ((ensureRosterIdRun o u l).1.2 = l ∧ (ensureRosterIdRun o u l).2 = true) ∨
      (ensureRosterIdRun o u l).2 = false := by
  unfold ensureRosterIdRun
  repeat' split
  all_goals first
    | exact Or.inr rfl
    | exact Or.inl ⟨rfl, rfl⟩
    | exact ensureRosterIdFetch_league_or_flag o _ l

theorem ensureRosterIdRun_throw_unset (o : Oracles) (u : UserConfig) (l : LeagueBinding)
    (h : (ensureRosterIdRun o u l).2 = true) : l.rosterId = none := by
  by_cases hs : l.rosterId.isSome = true
  · exfalso
    unfold ensureRosterIdRun at h
    rw [if_pos hs] at h
    simp at h
  · simpa [Option.not_isSome_iff_eq_none] using hs

/-! ## C2: staleness sweep -/

/-- C2 counterexample: with the TTL long expired, a cache access (the
`previewMatchup` block) does not clear the cached entries — league B's
stale matchups and rosters survive an access querying league A.  The
sweep is not run "before any cache get or fetch". -/
theorem c2_counterexample :
    isCacheValidB staleCache 1000000 = false ∧
    lookupA ((previewAccess staleCache (some 5) 5 "A" 1000000 7 8).1).matchups "B" = some 2 ∧
    lookupA ((previewAccess staleCache (some 5) 5 "A" 1000000 7 8).1).rosters "B" = some 4 := by
  decide

/-- C2 (amended): the staleness sweep (`clearOldCache`) runs when the
season-state endpoint handler (`getNFLState`) executes, not before
every cache access; when it runs with the TTL elapsed it clears the
cached matchups, rosters, projections and bulk projections for all
leagues together.  Cache accesses themselves never remove other
leagues' entries. -/
theorem c2_theorem :
    (∀ (s : CacheState) (w : Nat) (now : ℤ),
      isCacheValidB s now = false →
      (getNFLStateStep s w now).1.matchups = [] ∧
      (getNFLStateStep s w now).1.rosters = [] ∧
      (getNFLStateStep s w now).1.projections = [] ∧
      (getNFLStateStep s w now).1.bulkProjections = []) ∧
    (∀ (s : CacheState) (cw : Option Nat) (w : Nat) (lid lid2 : String) (now : ℤ) (fm fr : Nat),
      lid2 ≠ lid →
      lookupA ((previewAccess s cw w lid now fm fr).1).matchups lid2 = lookupA s.matchups lid2 ∧
      lookupA ((previewAccess s cw w lid now fm fr).1).rosters lid2 = lookupA s.rosters lid2) := by
  constructor
  · intro s w now hstale
    simp [getNFLStateStep, clearOldCache, hstale]
  · intro s cw w lid lid2 now fm fr hne
    unfold previewAccess
    split
    · split
      · exact ⟨rfl, rfl⟩
      · exact ⟨lookupA_insertA_ne _ _ _ _ hne, lookupA_insertA_ne _ _ _ _ hne⟩
    · exact ⟨rfl, rfl⟩

/-- C2 witness: both parts of the amended claim at concrete inputs:
the stale two-league cache is fully cleared by the `getNFLState` step,
and a preview access for league A preserves league B's entry. -/
theorem c2_witness :
    ((getNFLStateStep staleCache 5 1000000).1.matchups = [] ∧
     (getNFLStateStep staleCache 5 1000000).1.rosters = [] ∧
     (getNFLStateStep staleCache 5 1000000).1.projections = [] ∧
     (getNFLStateStep staleCache 5 1000000).1.bulkProjections = []) ∧
    (lookupA ((previewAccess staleCache (some 5) 5 "A" 1000000 7 8).1).matchups "B" =
       lookupA staleCache.matchups "B" ∧
     lookupA ((previewAccess staleCache (some 5) 5 "A" 1000000 7 8).1).rosters "B" =
       lookupA staleCache.rosters "B") :=
  ⟨c2_theorem.1 staleCache 5 1000000 (by decide),
   c2_theorem.2 staleCache (some 5) 5 "A" "B" 1000000 7 8 (by decide)⟩

/-! ## C3: current-week cache hits and non-active bypass -/

/-- C3: for the active (current) week, once an access has stored the
snapshot, a second access within the TTL returns exactly the stored
values with no matchups/rosters fetch and no state change; a request
for a non-active week bypasses the cache, fetching live and storing
nothing. -/
theorem c3_theorem :
    (∀ (s : CacheState) (w : Nat) (lid : String) (t1 t2 : ℤ) (fm fr fm2 fr2 : Nat),
      isCacheValidB s t1 = true →
      lookupA s.matchups lid = none →
      isCacheValidB ((previewAccess s (some w) w lid t1 fm fr).1) t2 = true →
      previewAccess ((previewAccess s (some w) w lid t1 fm fr).1) (some w) w lid t2 fm2 fr2 =
        ((previewAccess s (some w) w lid t1 fm fr).1, (fm, fr), false)) ∧
    (∀ (s : CacheState) (cw : Option Nat) (w : Nat) (lid : String) (t : ℤ) (fm fr : Nat),
      cw ≠ some w → previewAccess s cw w lid t fm fr = (s, (fm, fr), true)) := by
  constructor
  · intro s w lid t1 t2 fm fr fm2 fr2 hvalid hnone hvalid2
    have h1 : previewAccess s (some w) w lid t1 fm fr =
        ({ s with matchups := insertA s.matchups lid fm,
                  rosters := insertA s.rosters lid fr,
                  timestamp := t1 }, (fm, fr), true) := by
      unfold previewAccess
      rw [hnone]
      simp [hvalid]
    rw [h1] at hvalid2 ⊢
    unfold previewAccess
    rw [lookupA_insertA_self, lookupA_insertA_self]
    simp [hvalid2]
  · intro s cw w lid t fm fr hne
    unfold previewAccess
    simp [hne]

/-- C3 witness: a concrete store-then-hit sequence for the current
week, and a concrete bypass for a non-current week. -/
theorem c3_witness :
    previewAccess ((previewAccess emptyCache (some 3) 3 "L" 1000 10 20).1) (some 3) 3 "L" 2000 11 21 =
      ((previewAccess emptyCache (some 3) 3 "L" 1000 10 20).1, (10, 20), false) ∧
    previewAccess emptyCache (some 3) 4 "L" 1000 5 6 = (emptyCache, (5, 6), true) :=
  ⟨c3_theorem.1 emptyCache 3 "L" 1000 2000 10 20 11 21 (by decide) (by decide) (by decide),
   c3_theorem.2 emptyCache (some 3) 4 "L" 1000 5 6 (by decide)⟩

/-! ## C4: request pacing -/

theorem gapsOK_append (l : List ℤ) (c : ℤ)
    (hg : gapsOK l = true)
    (hlast : ∀ r, l.getLast? = some r → r + requestDelay ≤ c) :
    gapsOK (l ++ [c]) = true := by
  induction l with
  | nil => simp [gapsOK]
  | cons a t ih =>
    cases t with
    | nil =>
      have h := hlast a (by simp)
      simp [gapsOK, h]
    | cons b t2 =>
      simp only [gapsOK, Bool.and_eq_true, decide_eq_true_eq] at hg
      have ih2 := ih hg.2 (fun r hr => hlast r (by rw [List.getLast?_cons_cons]; exact hr))
      simp only [List.cons_append, gapsOK, Bool.and_eq_true, decide_eq_true_eq]
      exact ⟨hg.1, by simpa using ih2⟩

theorem paceRun_serial_gaps (calls : List (ℤ × ℤ)) :
    ∀ (i0 : Nat) (s : PacerState),
    s.pending = [] →
    gapsOK s.requests = true →
    (∀ r, s.requests.getLast? = some r → r = s.last) →
    ∀ s', paceRun s (mkSerial i0 calls) = some s' → gapsOK s'.requests = true := by
  induction calls with
  | nil =>
    intro i0 s hp hg hl s' h
    simp only [mkSerial, paceRun, Option.some.injEq] at h
    rw [← h]
    exact hg
  | cons tc rest ih =>
    obtain ⟨t, c⟩ := tc
    intro i0 s hp hg hl s' h
    simp only [mkSerial, paceRun] at h
    cases h1 : paceStep s (PacerEvent.read i0 t) with
    | none => rw [h1] at h; exact absurd h (by simp)
    | some s1 =>
      rw [h1] at h
      simp only [Option.some_bind] at h
      simp only [paceStep] at h1
      split at h1
      · rename_i hcond1
        simp only [Option.some.injEq] at h1
        subst h1
        rw [hp] at h
        set T : ℤ := if t - s.last < requestDelay then s.last + requestDelay else t with hT
        cases h2 : paceStep
            { s with prevTime := t, pending := [(i0, T)], started := i0 :: s.started }
            (PacerEvent.commit i0 c) with
        | none => rw [h2] at h; exact absurd h (by simp)
        | some s2 =>
          rw [h2] at h
          simp only [Option.some_bind] at h
          simp [paceStep, lookupN, removeN] at h2
          obtain ⟨⟨hpc, htc⟩, hs2⟩ := h2
          have htarget : s.last + requestDelay ≤ c := by
            by_cases hlt : t - s.last < requestDelay
            · rw [hT, if_pos hlt] at htc; exact htc
            · rw [hT, if_neg hlt] at htc; omega
          refine ih (i0 + 1) s2 ?_ ?_ ?_ s' h
          · rw [← hs2]
          · rw [← hs2]
            exact gapsOK_append s.requests c hg
              (fun r hr => by rw [hl r hr]; exact htarget)
          · rw [← hs2]
            intro r hr
            rw [List.getLast?_concat] at hr
            exact (Option.some_inj.mp hr).symm
      · exact absurd h1 (by simp)

/-- C4 counterexample: a valid interleaving in which two concurrent
`rateLimit()` calls both read the same `lastRequestTime` (1000), both
sleep until 1100, and both record their requests at 1100 — a gap of 0
between consecutive outbound requests, violating the claimed minimum
interval under concurrency. -/
theorem c4_counterexample :
    (paceRun pacerInit
      [PacerEvent.read 0 1000, PacerEvent.commit 0 1000,
       PacerEvent.read 1 1000, PacerEvent.read 2 1001,
       PacerEvent.commit 1 1100, PacerEvent.commit 2 1100]).map
        (fun s => gapsOK s.requests) = some false := by
  decide

/-- C4 (amended): for fully serialized call sequences (each call reads
and commits before the next starts) the recorded request times of
consecutive calls are always at least the configured minimum interval
(100 ms) apart; concurrently interleaved calls can both compute their
wait from the same recorded time and violate the spacing. -/
theorem c4_theorem (calls : List (ℤ × ℤ)) (s' : PacerState)
    (h : paceRun pacerInit (mkSerial 0 calls) = some s') :
    gapsOK s'.requests = true :=
  paceRun_serial_gaps calls 0 pacerInit rfl rfl (by intro r hr; simp [pacerInit] at hr) s' h

/-- C4 witness: a concrete serialized two-call run whose recorded
request gaps satisfy the minimum interval. -/
theorem c4_witness :
    gapsOK ({ last := 250, prevTime := 250, pending := [], started := [1, 0],
              requests := [100, 250] } : PacerState).requests = true :=
  c4_theorem [(0, 100), (150, 250)] _ (by decide)

/-! ## C5: cross-account league-name resolution -/

/-- C5: when the hint matches no configured account handle but the
cross-account pass has a first match — a binding whose display name
substring-matches the hint case-insensitively in either direction, or
whose raw league identifier equals the hint exactly — resolution
returns that binding under its owning account.  (The first configured
account must have at least one binding, else the guard returns the
no-configuration signal; see the C9 theorem.) -/
theorem c5_theorem (o : Oracles) (u0 : UserConfig) (rest : List UserConfig)
    (hstr : String) (u : UserConfig) (b : LeagueBinding)
    (hne : u0.leagues ≠ [])
    (hnohandle : ∀ v ∈ u0 :: rest, handleMatches (jsToLower hstr) v = false)
    (hfirst : crossAccountFirstMatch o (u0 :: rest) hstr = some (u, b)) :
    (findUserAndLeague o (u0 :: rest) (some hstr)).map
      (fun p => (p.1.username, p.2.leagueId)) = some (u.username, b.leagueId) := by
  have hpass2 : firstSome (pass2User o (jsToLower hstr)) (u0 :: rest) = none := by
    apply firstSome_eq_none
    intro v hv
    unfold pass2User
    rw [hnohandle v hv]
    simp
  have hpass3 : firstSome (fun u1 => firstSome (fun b1 =>
      if pass3Matches o hstr (jsToLower hstr) b1 then some (ensureRosterId o u1 b1) else none)
      u1.leagues) (u0 :: rest)
      = (crossAccountFirstMatch o (u0 :: rest) hstr).map (fun p => ensureRosterId o p.1 p.2) := by
    simpa [crossAccountFirstMatch] using firstSome_nested_map (u0 :: rest)
      (fun u1 b1 => pass3Matches o hstr (jsToLower hstr) b1)
      (fun u1 b1 => ensureRosterId o u1 b1)
  obtain ⟨l0, ls, hl⟩ : ∃ l0 ls, u0.leagues = l0 :: ls := by
    cases hcase : u0.leagues with
    | nil => exact absurd hcase hne
    | cons a as => exact ⟨a, as, rfl⟩
  simp only [findUserAndLeague, hl]
  simp only [Option.isNone_some, Bool.false_eq_true, false_and, if_false]
  rw [hpass2, hpass3, hfirst]
  simp [ensureRosterId_username, ensureRosterId_leagueId]

/-- C5 witness: the hint "warriors" matches the league named "Dynasty
Warriors" (case-insensitively) but not the handle "alice"; resolution
returns that league under alice's account. -/
theorem c5_witness :
    (findUserAndLeague oNone [userW] (some "warriors")).map
      (fun p => (p.1.username, p.2.leagueId)) = some ("alice", "L1") := by
  have h := c5_theorem oNone userW [] "warriors" userW bindW
    (by decide) (by decide) (by decide)
  simpa [userW, bindW] using h

/-! ## C6: idempotent, non-clobbering roster resolution -/

/-- C6: if the binding already has a roster id, `ensureRosterId` is a
no-op (neither the binding nor the account's resolved user id change,
and nothing is thrown); and whenever a fetch failure is caught during
resolution, the binding's roster id is still unset afterwards — it is
never overwritten with empty data, and the error is not rethrown
(`ensureRosterId` returns the partial state instead). -/
theorem c6_theorem (o : Oracles) (u : UserConfig) (l : LeagueBinding) :
    (l.rosterId.isSome = true → ensureRosterIdRun o u l = ((u, l), false)) ∧
    ((ensureRosterIdRun o u l).2 = true →
      (ensureRosterIdRun o u l).1.2.rosterId = none ∧ l.rosterId = none) := by
  constructor
  · intro hs
    unfold ensureRosterIdRun
    rw [if_pos hs]
  · intro ht
    have hnone := ensureRosterIdRun_throw_unset o u l ht
    rcases ensureRosterIdRun_league_or_flag o u l with ⟨heq, -⟩ | hf
    · rw [heq]
      exact ⟨hnone, hnone⟩
    · rw [hf] at ht
      cases ht

/-- C6 witness: a resolved binding is left untouched, and with every
fetch failing the unresolved binding's roster id stays unset. -/
theorem c6_witness :
    ensureRosterIdRun oNone u6 l6a = ((u6, l6a), false) ∧
    ((ensureRosterIdRun oNone u6 l6b).1.2.rosterId = none ∧ l6b.rosterId = none) :=
  ⟨(c6_theorem oNone u6 l6a).1 (by decide), (c6_theorem oNone u6 l6b).2 (by decide)⟩

/-! ## C9: the no-configuration signal -/

/-- C9: resolution returns the no-configuration signal (`none`) if and
only if the account list is empty or the first account has no league
bindings; every other configuration resolves to some account/league
pair for every hint.  In particular a configuration whose second
account has bindings but whose first account has none still yields the
signal. -/
theorem c9_theorem :
    (∀ (o : Oracles) (users : List UserConfig) (hint : Option String),
      (findUserAndLeague o users hint).isNone =
        (match users with
         | [] => true
         | u0 :: _ => u0.leagues.isEmpty)) ∧
    findUserAndLeague oNone
      [{ username := "a", userId := none, leagues := [] },
       { username := "b", userId := none,
         leagues := [{ leagueId := "L", leagueName := none, rosterId := none }] }]
      (some "L") = none := by
  constructor
  · intro o users hint
    cases users with
    | nil => rfl
    | cons u0 rest =>
      cases hl : u0.leagues with
      | nil => simp [findUserAndLeague, hl]
      | cons l0 ls =>
        simp only [findUserAndLeague, hl]
        repeat' split
        all_goals simp
  · rfl

/-! ## C7: player-directory load retries -/

theorem insertA_ne_nil {β : Type} (m : List (String × β)) (k : String) (v : β) :
    insertA m k v ≠ [] := by
  cases m with
  | nil => simp [insertA]
  | cons hd t =>
    obtain ⟨a, b⟩ := hd
    unfold insertA
    split <;> simp

theorem foldl_insertA_ne_nil {β : Type} (l : List (String × β)) (c : List (String × β))
    (hc : c ≠ []) : List.foldl (fun c p => insertA c p.1 p.2) c l ≠ [] := by
  induction l generalizing c with
  | nil => simpa
  | cons p t ih => exact ih _ (insertA_ne_nil _ _ _)

theorem loadPlayersCacheRun_nonempty (f : Option (List (String × SleeperPlayer)))
    (c : List (String × SleeperPlayer)) (hc : c ≠ []) :
    loadPlayersCacheRun f c = (c, false) := by
  unfold loadPlayersCacheRun
  rw [if_neg (by simpa [List.length_eq_zero] using hc)]

/-- C7 counterexample: a load that succeeds with an empty catalog
(`response.data = {}`) leaves `playersCache.size === 0`, so the very
next `loadPlayersCache()` call fetches again — "once any load
succeeds, later calls perform no further fetches" fails for an empty
successful load. -/
theorem c7_counterexample :
    (loadPlayersCacheRun (some []) []).2 = true ∧
    (loadPlayersCacheRun (some [])
      ((loadPlayersCacheRun (some ([] : List (String × SleeperPlayer))) []).1)).2 = true := by
  constructor <;> rfl

/-- C7 (amended): a failed load leaves the directory empty, every
lookup then returns `none`, and the next call attempts the full fetch
again (failure is never terminal); once a load succeeds with a
nonempty catalog, later calls perform no further fetches and leave the
directory unchanged. -/
theorem c7_theorem :
    ((loadPlayersCacheRun none []).1 = [] ∧
     (∀ id, lookupA ((loadPlayersCacheRun (none : Option (List (String × SleeperPlayer))) []).1)
       id = none) ∧
     (∀ f, (loadPlayersCacheRun f
       ((loadPlayersCacheRun (none : Option (List (String × SleeperPlayer))) []).1)).2 = true)) ∧
    (∀ (e : String × SleeperPlayer) (es : List (String × SleeperPlayer))
        (f : Option (List (String × SleeperPlayer))),
      loadPlayersCacheRun f ((loadPlayersCacheRun (some (e :: es)) []).1) =
        ((loadPlayersCacheRun (some (e :: es)) []).1, false)) := by
  constructor
  · refine ⟨rfl, fun id => rfl, fun f => ?_⟩
    cases f <;> rfl
  · intro e es f
    apply loadPlayersCacheRun_nonempty
    show List.foldl (fun c p => insertA c p.1 p.2) [] (e :: es) ≠ []
    rw [List.foldl_cons]
    exact foldl_insertA_ne_nil es _ (insertA_ne_nil _ _ _)

/-! ## C8: trade evaluation -/

theorem tierValue_eq_ifs (pos : Option String) :
    tierValue pos =
      (if pos = some "TE" then 60
       else if pos = some "WR" then 70
       else if pos = some "RB" then 80
       else if pos = some "QB" then 100 else 50) := by
  unfold tierValue
  split <;> simp_all +decide

theorem teamValue_q : teamValue cache8 ["q"] = 100 := by
  simp +decide [teamValue, getPlayerValue, cache8, lookupA, jsTruthyStr]

theorem teamValue_k : teamValue cache8 ["k"] = 50 := by
  simp +decide [teamValue, getPlayerValue, cache8, lookupA, jsTruthyStr]

/-- C8: each player in the directory is valued by the position tier
(QB 100, RB 80, WR 70, TE 60, anything else 50), multiplied by 0.7
under any truthy injury designation; the absolute side-value gap as a
percentage of the larger side classifies the trade — under 15% fair,
over 15% (up to 30%) a slight advantage, over 30% a significant win,
each time favouring the higher-valued side.  In particular sides
valued 100 and 50 give a 50% difference, "Team 1 wins significantly",
rendered as "50.0%". -/
theorem c8_theorem :
    (∀ (cache : List (String × SleeperPlayer)) (id : String) (p : SleeperPlayer),
      lookupA cache id = some p →
      getPlayerValue cache id =
        tierValue p.position * (if jsTruthyStr p.injury_status then 7 / 10 else 1)) ∧
    (∀ (cache : List (String × SleeperPlayer)) (l1 l2 : List String) (pd : ℚ),
      max (teamValue cache l1) (teamValue cache l2) ≠ 0 →
      pd = |teamValue cache l1 - teamValue cache l2| /
        max (teamValue cache l1) (teamValue cache l2) * 100 →
      ((pd < 15 → (analyzeTradeCore cache l1 l2).recommendation = "Fair trade") ∧
       (15 < pd ∧ pd ≤ 30 → (analyzeTradeCore cache l1 l2).recommendation =
         (if teamValue cache l1 > teamValue cache l2 then "Team 1 has slight advantage"
          else "Team 2 has slight advantage")) ∧
       (30 < pd → (analyzeTradeCore cache l1 l2).recommendation =
         (if teamValue cache l1 > teamValue cache l2 then "Team 1 wins significantly"
          else "Team 2 wins significantly")))) ∧
    analyzeTradeCore cache8 ["q"] ["k"] =
      { team1_value := 100, team2_value := 50, value_difference := 50,
        percent_difference := "50.0%", recommendation := "Team 1 wins significantly" } := by
  refine ⟨?_, ?_, ?_⟩
  · intro cache id p h
    simp only [getPlayerValue, h]
    rw [tierValue_eq_ifs]
    by_cases hi : jsTruthyStr p.injury_status = true
    · simp [hi]
    · simp only [Bool.not_eq_true] at hi
      simp [hi]
  · intro cache l1 l2 pd hm hpd
    have hdiv : jsDiv (|teamValue cache l1 - teamValue cache l2|)
        (max (teamValue cache l1) (teamValue cache l2)) =
        JSNum.num (|teamValue cache l1 - teamValue cache l2| /
          max (teamValue cache l1) (teamValue cache l2)) := by
      unfold jsDiv
      rw [if_neg hm]
    simp only [analyzeTradeCore, hdiv, jsMulK, jsGtK, ← hpd, decide_eq_true_eq]
    refine ⟨?_, ?_, ?_⟩
    · intro h
      rw [if_neg (by linarith), if_neg (by linarith)]
    · rintro ⟨h15, h30⟩
      rw [if_neg (by linarith), if_pos (by linarith)]
    · intro h
      rw [if_pos (by linarith)]
  · simp only [analyzeTradeCore, teamValue_q, teamValue_k]
    have habs : |(100 : ℚ) - 50| = 50 := by norm_num
    have hmax : max (100 : ℚ) 50 = 100 := by norm_num
    rw [habs, hmax]
    have hdiv : jsDiv (50 : ℚ) 100 = JSNum.num (1 / 2) := by
      unfold jsDiv
      norm_num
    rw [hdiv]
    have hmul : jsMulK (JSNum.num (1 / 2)) 100 = JSNum.num 50 := by
      simp [jsMulK]
      norm_num
    rw [hmul]
    have hfix : jsToFixed1 (JSNum.num 50) = "50.0" := by
      show toFixed1Q 50 = "50.0"
      unfold toFixed1Q toFixed1Nonneg
      norm_num
      decide
    have hgt : jsGtK (JSNum.num 50) 30 = true := by
      simp only [jsGtK, decide_eq_true_eq]
      norm_num
    rw [hfix, hgt]
    norm_num
    decide

/-- C8 witness: the tier-value equation at the concrete QB, and the
classification at the concrete 100-versus-50 trade (percent difference
50, over the 30% threshold, favouring team 1). -/
theorem c8_witness :
    getPlayerValue cache8 "q" =
      tierValue (some "QB") * (if jsTruthyStr none then 7 / 10 else 1) ∧
    (analyzeTradeCore cache8 ["q"] ["k"]).recommendation =
      (if teamValue cache8 ["q"] > teamValue cache8 ["k"] then "Team 1 wins significantly"
       else "Team 2 wins significantly") := by
  constructor
  · exact c8_theorem.1 cache8 "q"
      { first_name := "Pat", last_name := "M", position := some "QB", injury_status := none }
      (by decide)
  · exact (c8_theorem.2.1 cache8 ["q"] ["k"] 50
      (by rw [teamValue_q, teamValue_k]; norm_num)
      (by rw [teamValue_q, teamValue_k]; norm_num)).2.2 (by norm_num)

/-! ## C10: NaN percent difference -/

/-- C10: when every listed player on both sides is absent from the
player directory (including when both lists are empty), both side
values are 0 and the percent difference is computed as `0/0`; the
report carries `value_difference = 0` and `percent_difference =
"NaN%"` — the division is not guarded and nothing fails. -/
theorem c10_theorem (cache : List (String × SleeperPlayer)) (l1 l2 : List String)
    (h : ∀ id ∈ l1 ++ l2, lookupA cache id = none) :
    teamValue cache l1 = 0 ∧ teamValue cache l2 = 0 ∧
    (analyzeTradeCore cache l1 l2).value_difference = 0 ∧
    (analyzeTradeCore cache l1 l2).percent_difference = "NaN%" := by
  have hv : ∀ (l : List String), (∀ id ∈ l, lookupA cache id = none) →
      teamValue cache l = 0 := by
    intro l hl
    unfold teamValue
    apply List.sum_eq_zero
    intro x hx
    obtain ⟨id, hid, rfl⟩ := List.mem_map.mp hx
    unfold getPlayerValue
    rw [hl id hid]
  have ht1 : teamValue cache l1 = 0 := hv l1 (fun id hid => h id (List.mem_append_left _ hid))
  have ht2 : teamValue cache l2 = 0 := hv l2 (fun id hid => h id (List.mem_append_right _ hid))
  refine ⟨ht1, ht2, ?_, ?_⟩
  · simp only [analyzeTradeCore, ht1, ht2]
    norm_num
  · simp only [analyzeTradeCore, ht1, ht2]
    have habs : |(0 : ℚ) - 0| = 0 := by norm_num
    have hmax0 : max (0 : ℚ) 0 = 0 := by norm_num
    rw [habs, hmax0]
    have hdiv : jsDiv (0 : ℚ) 0 = JSNum.nan := by
      unfold jsDiv
      norm_num
    rw [hdiv]
    rfl

/-- C10 witness: a one-player trade list against an empty directory. -/
theorem c10_witness :
    teamValue [] ["x"] = 0 ∧ teamValue [] [] = 0 ∧
    (analyzeTradeCore [] ["x"] []).value_difference = 0 ∧
    (analyzeTradeCore [] ["x"] []).percent_difference = "NaN%" :=
  c10_theorem [] ["x"] [] (fun _ _ => rfl)

/-! ## C1: scoring reconstruction -/

/-- C1 counterexample: the claim's sum ranges over every stat category
present in both maps with a nonzero weight, but the code only inspects
its fixed fifteen-category list.  For the special-teams touchdown
category `st_td` (present in real Sleeper scoring settings) the claim
demands `1 * 6 = 6` while the code computes `0` (category pass finds
nothing, and no pre-aggregated field is present either). -/
theorem c1_counterexample :
    computePoints [("st_td", 1)] [("st_td", 6)] = 0 ∧
    claimSumAll [("st_td", 1)] [("st_td", 6)] = 6 ∧ (0 : ℚ) ≠ 6 := by
  refine ⟨?_, ?_, by norm_num⟩
  · simp +decide only [computePoints, rawPoints, knownCats, catContrib, lookupA,
      recFallback, getQ, List.map, List.sum_cons, List.sum_nil]
    norm_num
  · simp +decide only [claimSumAll, lookupA, List.map, List.sum_cons, List.sum_nil]
    norm_num

/-- C1 (amended): for every raw-stats record and weight table, the
computed total equals the claim's sum restricted to the code's fixed
fifteen known stat categories (`stats[c] * weights[c]` over known
categories present in both with nonzero weight); when that sum is
exactly zero the result is the pre-aggregated field selected by the
reception weight (1 → `pts_ppr`, 0.5 → `pts_half_ppr`, otherwise
`pts_std`), defaulting to 0 when the field is absent.  In particular
`computePoints({rec: 5, rec_yd: 80}, {rec: 1, rec_yd: 0.1}) = 13` and
`computePoints({pts_ppr: 9}, {rec: 1}) = 9`. -/
theorem c1_theorem :
    (∀ stats weights : List (String × ℚ),
      computePoints stats weights =
        if claimSumKnown stats weights = 0 then
          (if lookupA weights "rec" = some 1 then getQ stats "pts_ppr"
           else if lookupA weights "rec" = some (1 / 2) then getQ stats "pts_half_ppr"
           else getQ stats "pts_std")
        else claimSumKnown stats weights) ∧
    computePoints [("rec", 5), ("rec_yd", 80)] [("rec", 1), ("rec_yd", 1 / 10)] = 13 ∧
    computePoints [("pts_ppr", 9)] [("rec", 1)] = 9 := by
  refine ⟨?_, ?_, ?_⟩
  · intro stats weights
    simp only [computePoints, recFallback]
    rw [rawPoints_eq_claimSumKnown]
  · simp +decide only [computePoints, rawPoints, knownCats, catContrib, lookupA,
      recFallback, getQ, List.map, List.sum_cons, List.sum_nil]
    norm_num
  · simp +decide only [computePoints, rawPoints, knownCats, catContrib, lookupA,
      recFallback, getQ, List.map, List.sum_cons, List.sum_nil]
    norm_num

end SleeperMCP
